import Mathlib

/-!
# go-launcher: argument validation, elevation and install/uninstall orchestration

A shallow embedding of `main.go`.  The program is a straight-line pipeline
whose every step is either an observable action (printing, running a command,
calling the service-management library) or a process exit.  A run is therefore
modelled as the list of actions it performs, in order, together with the way
the process ends.

Everything the program reads from outside (parsed flag values, `os.Args`,
`runtime.GOOS`, the effective user id, the results of the commands it runs and
of the calls into `github.com/kardianos/service`) is a field of `Flags` or
`Env`.  Each of these is consulted at most once per run, so one fixed answer
per question loses no generality.
-/

namespace GoLauncher

/-! ## Constants (main.go, lines 15-18) -/

def ExitCodeNoServiceSystemAvailable : Nat := 60

def ExitCodeElevationCanceled : Nat := 61

/-! ## Data -/

/-- The error with which the parsing loop of `flag.Parse()` ends: `nil` when
the whole command line was parsed, the sentinel `flag.ErrHelp` when `-h` was
met (`-help` is a defined flag of this program, `-h` is not), or any other
parse error (undefined flag, missing value, invalid boolean) with its
message. -/
inductive ParseErr where
  | nil
  | ErrHelp
  | other (msg : String)
  deriving DecidableEq, Repr

/-- What `flag.Parse()` makes of the command line: the values of the flag
variables (lines 20-26), the number `helpCount` of `-help` flags it processed
(the `flag.BoolFunc` callback of `init` runs once for each), and the error
`parseErr` with which parsing ended. -/
structure Flags where
  flagName : String
  flagDescription : String
  flagExecPath : String
  flagUser : String
  flagUninstall : Bool
  helpCount : Nat
  parseErr : ParseErr
  deriving DecidableEq, Repr

/-- The fields of `service.Config` that `launchService` sets. -/
structure Config where
  Name : String
  DisplayName : String
  Description : String
  Executable : String
  UserName : String
  deriving DecidableEq, Repr

/-- The error value returned by `service.New`, as far as `launchService`
distinguishes it: `nil`, the sentinel `service.ErrNoServiceSystemDetected`, or
any other error (carrying its message). -/
inductive NewErr where
  | nil
  | ErrNoServiceSystemDetected
  | other (msg : String)
  deriving DecidableEq, Repr

/-- The error value returned by `Service.Status`, as far as `isInstalled`
distinguishes it: `nil`, the sentinel `service.ErrNotInstalled`, or any other
error. -/
inductive StatusErr where
  | nil
  | ErrNotInstalled
  | other (msg : String)
  deriving DecidableEq, Repr

/-- A non-nil `service.Service` value, given by what its methods answer.  An
error of `Install`/`Uninstall` is its message (`none` is Go's `nil`). -/
structure Service where
  statusErr : StatusErr
  installErr : Option String
  uninstallErr : Option String
  platform : String
  deriving DecidableEq, Repr

/-- An `exec.Cmd` as built by `exec.Command(name, arg...)`: the program to run
and the full argument vector (`cmd.Args`, which starts with `name`). -/
structure Cmd where
  Path : String
  Args : List String
  deriving DecidableEq, Repr

/-- Everything outside the program that a run consults. -/
structure Env where
  /-- Value of `runtime.GOOS`. -/
  goos : String
  /-- Value of `os.Geteuid()`. -/
  euid : Int
  /-- Value of `os.Args`. -/
  osArgs : List String
  /-- The string returned by `os.Executable()`. -/
  executable : String
  /-- The error returned by `os.Executable()` (`none` is `nil`). -/
  executableErr : Option String
  /-- The error returned by `cmd.Run()` for a given command. -/
  runErr : Cmd → Option String
  /-- The pair returned by `service.New(nil, cfg)`; `none` is the nil interface. -/
  serviceNew : Config → Option Service × NewErr

/-- The functions of the program whose entry is recorded in the trace. -/
inductive Fn where
  | isElevated
  | elevate
  | launchService
  | isInstalled
  deriving DecidableEq, Repr

/-- One observable action of a run. -/
inductive Event where
  /-- Entry into a function of the program. -/
  | call (fn : Fn)
  /-- Output on standard error, newline included: the builtin `println` and
  the error messages of the `flag` package. -/
  | stderr (text : String)
  /-- Output of `fmt.Printf` (standard output). -/
  | stdout (text : String)
  /-- A call of `flag.Usage()`, by `init` or by the `flag` package. -/
  | usage
  /-- A call of `os.Executable()`. -/
  | osExecutable
  /-- A call of `cmd.Run()` and the error it returned. -/
  | run (cmd : Cmd) (err : Option String)
  /-- A call of `service.New(nil, cfg)` and the error it returned. -/
  | serviceNew (cfg : Config) (err : NewErr)
  /-- A call of `s.Status()` and the error it returned. -/
  | status (err : StatusErr)
  /-- A call of `s.Install()` and the error it returned. -/
  | install (err : Option String)
  /-- A call of `s.Uninstall()` and the error it returned. -/
  | uninstall (err : Option String)
  /-- A call of `s.Platform()`. -/
  | platform
  deriving DecidableEq, Repr

/-- How the process ends: `os.Exit(code)` (or a normal return of `main`, which
is exit code 0), or a Go runtime panic. -/
inductive Outcome where
  | exited (code : Nat)
  | panicked
  deriving DecidableEq, Repr

/-- Result of a piece of code: it either goes on with a value or ends the
process. -/
inductive Step (α : Type) where
  | next (a : α)
  | stop (o : Outcome)
  deriving DecidableEq, Repr

/-- A piece of code: the actions it performs and how it finishes. -/
structure Proc (α : Type) where
  trace : List Event
  step : Step α

namespace Proc

def ret {α : Type} (a : α) : Proc α := ⟨[], Step.next a⟩

def andThen {α β : Type} (m : Proc α) (k : α → Proc β) : Proc β :=
  match m.step with
  | Step.next a => ⟨m.trace ++ (k a).trace, (k a).step⟩
  | Step.stop o => ⟨m.trace, Step.stop o⟩

end Proc

instance : Monad Proc where
  pure := Proc.ret
  bind := Proc.andThen

/-- Perform one action. -/
def emit (e : Event) : Proc Unit := ⟨[e], Step.next ()⟩

/-- Go's `os.Exit(code)`. -/
def osExit {α : Type} (code : Nat) : Proc α := ⟨[], Step.stop (Outcome.exited code)⟩

/-- A Go runtime panic (nil interface method call, slice bounds). -/
def goPanic {α : Type} : Proc α := ⟨[], Step.stop Outcome.panicked⟩

/-- The builtin `println(s)`: `s` and a newline on standard error. -/
def println (s : String) : Proc Unit := emit (Event.stderr (s ++ "\n"))

/-- The call `fmt.Printf(s)` with the format already expanded. -/
def printf (s : String) : Proc Unit := emit (Event.stdout s)

/-! ## Library functions used by the program -/

/-- Go's `slices.Contains(s, v)`: whether some element of `s` equals `v`. -/
def slicesContains : List String → String → Bool
  | [], _ => false
  | x :: xs, v => if x = v then true else slicesContains xs v

/-- Go's `strings.Join(elems, sep)`. -/
def stringsJoin : List String → String → String
  | [], _ => ""
  | [x], _ => x
  | x :: y :: rest, sep => x ++ sep ++ stringsJoin (y :: rest) sep

/-- Go's `exec.Command(name, arg...)`: `Args` is `name` followed by `arg`. -/
def execCommand (name : String) (arg : List String) : Cmd :=
  { Path := name, Args := name :: arg }

/-- The method `cmd.Run()`: runs the command and returns its error. -/
def cmdRun (env : Env) (cmd : Cmd) : Proc (Option String) := do
  emit (Event.run cmd (env.runErr cmd))
  pure (env.runErr cmd)

/-! ## The program -/

/-- The three lines printed by the `-help` callback (lines 29-34). -/
def helpText : Proc Unit := do
  println "Utility program that helps creating or removing a system service for launching a program at startup."
  println "\nFor installation, all flags except -uninstall are required."
  println "For uninstallation, only -name and -uninstall flags are required."

/-- The `-help` callback run `n` times, once per `-help` flag processed. -/
def helpCallbacks : Nat → Proc Unit
  | 0 => pure ()
  | n + 1 => do
    helpText
    helpCallbacks n

/-- The call `flag.Parse()` (line 35) on the command-line flag set, whose error
handling is `flag.ExitOnError`.  The `-help` callbacks run while the flags are
processed.  If parsing ends with `flag.ErrHelp` the package calls the usage
function and exits with code 0; if it ends with any other error the package
prints the error on standard error, calls the usage function and exits with
code 2; otherwise `flag.Parse()` returns. -/
def flagParse (f : Flags) : Proc Unit := do
  helpCallbacks f.helpCount
  match f.parseErr with
  | ParseErr.nil => pure ()
  | ParseErr.ErrHelp => do
    emit Event.usage
    osExit 0
  | ParseErr.other msg => do
    emit (Event.stderr (msg ++ "\n"))
    emit Event.usage
    osExit 2

/-- Function `init` (lines 28-47). -/
def init (f : Flags) : Proc Unit := do
  flagParse f
  if !f.flagUninstall then
    if slicesContains [f.flagName, f.flagDescription, f.flagExecPath, f.flagUser] "" then do
      emit Event.usage
      osExit 2
    else
      pure ()
  else if f.flagName = "" then do
    println "Service name is required for uninstallation"
    emit Event.usage
    osExit 2
  else
    pure ()

/-- Function `isElevated` (lines 106-114). -/
def isElevated (env : Env) : Proc Bool := do
  emit (Event.call Fn.isElevated)
  if env.goos = "windows" then do
    let cmd := execCommand "net" ["session"]
    let err ← cmdRun env cmd
    pure (err == none)
  else
    pure (env.euid == 0)

/-- Function `elevate` (lines 116-155).  `os.Args[1:]` panics on an empty
`os.Args`. -/
def elevate (env : Env) : Proc Unit := do
  emit (Event.call Fn.elevate)
  emit Event.osExecutable
  match env.executableErr with
  | some err => do
    printf ("Error getting executable path: " ++ err ++ "\n")
    osExit 1
  | none =>
    match env.osArgs with
    | [] => goPanic
    | _ :: args =>
      if env.goos = "windows" then do
        let exe := "powershell"
        let command := "Start-Process '" ++ env.executable ++ "' -ArgumentList '"
          ++ stringsJoin args "' '" ++ "' -Verb RunAs"
        let cmd := execCommand exe ["-Command", command]
        let err ← cmdRun env cmd
        match err with
        | some e => do
          printf ("Failed to elevate privileges: " ++ e ++ "\n")
          osExit ExitCodeElevationCanceled
        | none => pure ()
      else do
        let args := env.executable :: args
        let cmd := execCommand "sudo" args
        printf ("Elevating privileges: " ++ stringsJoin cmd.Args " " ++ "\n")
        let err ← cmdRun env cmd
        match err with
        | some e => do
          printf ("Failed to elevate privileges: " ++ e ++ "\n")
          osExit ExitCodeElevationCanceled
        | none => pure ()

/-- Function `launchService` (lines 89-104).  Only the sentinel
`ErrNoServiceSystemDetected` is checked; with any other error the returned
value (possibly the nil interface) is handed back to the caller. -/
def launchService (env : Env) (f : Flags) : Proc (Option Service) := do
  emit (Event.call Fn.launchService)
  let cfg : Config :=
    { Name := f.flagName
      DisplayName := f.flagName
      Description := f.flagDescription
      Executable := f.flagExecPath
      UserName := f.flagUser }
  let r := env.serviceNew cfg
  emit (Event.serviceNew cfg r.2)
  if r.2 = NewErr.ErrNoServiceSystemDetected then do
    println "no service manager available"
    osExit ExitCodeNoServiceSystemAvailable
  else
    pure r.1

/-- Function `isInstalled` (lines 84-87).  A method call on the nil interface
panics. -/
def isInstalled (s : Option Service) : Proc Bool := do
  emit (Event.call Fn.isInstalled)
  match s with
  | none => goPanic
  | some sv => do
    emit (Event.status sv.statusErr)
    pure (sv.statusErr != StatusErr.ErrNotInstalled)

/-- The method call `s.Uninstall()`. -/
def serviceUninstall (s : Option Service) : Proc (Option String) :=
  match s with
  | none => goPanic
  | some sv => do
    emit (Event.uninstall sv.uninstallErr)
    pure sv.uninstallErr

/-- The method call `s.Install()`. -/
def serviceInstall (s : Option Service) : Proc (Option String) :=
  match s with
  | none => goPanic
  | some sv => do
    emit (Event.install sv.installErr)
    pure sv.installErr

/-- The method call `s.Platform()`. -/
def servicePlatform (s : Option Service) : Proc String :=
  match s with
  | none => goPanic
  | some sv => do
    emit Event.platform
    pure sv.platform

/-- Function `main` (lines 49-82).  Each early `return` of the source is the
end of the corresponding branch here. -/
def main (env : Env) (f : Flags) : Proc Unit := do
  let elevated ← isElevated env
  if !elevated then
    elevate env
  else do
    let s ← launchService env f
    if f.flagUninstall then do
      let installed ← isInstalled s
      if !installed then
        println "service is not installed"
      else do
        let err ← serviceUninstall s
        match err with
        | some e => do
          printf ("Failed to uninstall service: " ++ e ++ "\n")
          osExit 1
        | none => println "service uninstalled successfully"
    else do
      let installed ← isInstalled s
      if installed then
        println "service already installed"
      else do
        let err ← serviceInstall s
        match err with
        | some e => do
          printf ("Failed to install service: " ++ e ++ "\n")
          osExit 1
        | none => do
          let p ← servicePlatform s
          println ("service installed and managed by: " ++ p)

/-- The whole process: the Go runtime runs `init`, then `main`; a `main` that
returns ends the process with exit code 0. -/
def program (env : Env) (f : Flags) : Proc Unit := do
  init f
  main env f

/-- The actions of a run, in order. -/
def runTrace (env : Env) (f : Flags) : List Event := (program env f).trace

/-- How a process whose code is `p` ends: code that runs to its end is exit
code 0. -/
def Proc.outcome (p : Proc Unit) : Outcome :=
  match p.step with
  | Step.next _ => Outcome.exited 0
  | Step.stop o => o

/-- How a run ends. -/
def runOutcome (env : Env) (f : Flags) : Outcome := (program env f).outcome

/-- How `init` alone ends: `none` when it returns and `main` is started. -/
def initOutcome (f : Flags) : Option Outcome :=
  match (init f).step with
  | Step.next _ => none
  | Step.stop o => some o

/-! ## Observations on traces -/

/-- Whether the action is output on standard error or a call of `flag.Usage()`:
the only actions of `init`. -/
def Event.isUsageOutput : Event → Bool
  | Event.stderr _ => true
  | Event.usage => true
  | _ => false

/-- Whether the action belongs to the orchestration logic of `main` (everything
from `launchService` on): entering `launchService` or `isInstalled`, or any call
into the service-management library. -/
def Event.isOrchestration : Event → Bool
  | Event.call Fn.launchService => true
  | Event.call Fn.isInstalled => true
  | Event.serviceNew _ _ => true
  | Event.status _ => true
  | Event.install _ => true
  | Event.uninstall _ => true
  | Event.platform => true
  | _ => false

/-- Whether the action is part of an elevation attempt: entering `elevate`,
asking for the executable path, or running a command. -/
def Event.isElevation : Event → Bool
  | Event.call Fn.elevate => true
  | Event.osExecutable => true
  | Event.run _ _ => true
  | _ => false

/-- Whether the action is a call of `s.Status()`. -/
def Event.isStatus : Event → Bool
  | Event.status _ => true
  | _ => false

/-- Whether the action is a call of `s.Install()`. -/
def Event.isInstall : Event → Bool
  | Event.install _ => true
  | _ => false

/-- Whether the action is a call of `s.Uninstall()`. -/
def Event.isUninstall : Event → Bool
  | Event.uninstall _ => true
  | _ => false

/-- Whether the action is a `cmd.Run()` that returned an error. -/
def Event.isFailedRun : Event → Bool
  | Event.run _ (some _) => true
  | _ => false

/-- Whether the action is an `Install` or `Uninstall` call that returned an
error. -/
def Event.isFailedOperation : Event → Bool
  | Event.install (some _) => true
  | Event.uninstall (some _) => true
  | _ => false

/-- The actions performed after the first entry into `elevate` (none if
`elevate` is never entered). -/
def afterElevate : List Event → List Event
  | [] => []
  | e :: rest => if e = Event.call Fn.elevate then rest else afterElevate rest

/-- Whether the elevation command was run and returned an error: a failed
`cmd.Run()` inside `elevate`. -/
def elevationCommandFailed (t : List Event) : Bool :=
  (afterElevate t).any Event.isFailedRun

/-! ## Concrete inputs -/

/-- An install command line with all four required flags. -/
def sampleInstallFlags : Flags :=
  Flags.mk "svc" "demo service" "/usr/bin/demo" "root" false 0 ParseErr.nil

/-- An install command line that lacks `-user`. -/
def sampleMissingUserFlags : Flags :=
  Flags.mk "svc" "demo service" "/usr/bin/demo" "" false 0 ParseErr.nil

/-- An uninstall command line. -/
def sampleUninstallFlags : Flags :=
  Flags.mk "svc" "" "" "" true 0 ParseErr.nil

/-- The command line `-h`: no flag is set and parsing ends with
`flag.ErrHelp`. -/
def sampleHelpRequestFlags : Flags :=
  Flags.mk "" "" "" "" false 0 ParseErr.ErrHelp

/-- An install command line with all four required flags followed by the
undefined flag `-bogus`. -/
def sampleUndefinedFlagFlags : Flags :=
  Flags.mk "svc" "demo service" "/usr/bin/demo" "root" false 0
    (ParseErr.other "flag provided but not defined: -bogus")

/-- The configuration `launchService` builds for `sampleInstallFlags`. -/
def sampleConfig : Config :=
  Config.mk "svc" "svc" "demo service" "/usr/bin/demo" "root"

/-- The value of `os.Args` that goes with `sampleInstallFlags`. -/
def sampleInstallArgs : List String :=
  ["go-launcher", "-name", "svc", "-description", "demo service", "-exec", "/usr/bin/demo",
    "-user", "root"]

/-- A service on a systemd machine with the given answers to `Status`,
`Install` and `Uninstall`. -/
def sampleService (status : StatusErr) (installErr uninstallErr : Option String) : Service :=
  Service.mk status installErr uninstallErr "linux-systemd"

/-- A Linux machine: effective user id `euid`, the given `os.Args`, the given
error from `os.Executable()`, every command run returning `runErr`, and
`service.New` returning `new`. -/
def sampleEnv (euid : Int) (args : List String) (executableErr runErr : Option String)
    (new : Option Service × NewErr) : Env :=
  Env.mk "linux" euid args "/usr/local/bin/go-launcher" executableErr (fun _ => runErr)
    (fun _ => new)

/-- A root run on a machine where the service is not yet installed and
`Install` fails. -/
def sampleInstallFailsEnv : Env :=
  sampleEnv 0 sampleInstallArgs none none
    (some (sampleService StatusErr.ErrNotInstalled (some "permission denied") none), NewErr.nil)

/-- A root run on a machine where the service is installed and `Uninstall`
succeeds. -/
def sampleUninstallEnv : Env :=
  sampleEnv 0 ["go-launcher", "-name", "svc", "-uninstall"] none none
    (some (sampleService StatusErr.nil none none), NewErr.nil)

/-- A root run on a machine where `Status` fails with an error other than
`ErrNotInstalled`. -/
def sampleStatusFailsEnv : Env :=
  sampleEnv 0 sampleInstallArgs none none
    (some (sampleService (StatusErr.other "dbus unavailable") none none), NewErr.nil)

/-- A root run on a machine without a service manager. -/
def sampleNoServiceSystemEnv : Env :=
  sampleEnv 0 sampleInstallArgs none none (none, NewErr.ErrNoServiceSystemDetected)

/-- A run as user 1000 in which the `sudo` command fails. -/
def sampleSudoFailsEnv : Env :=
  sampleEnv 1000 sampleInstallArgs none (some "exit status 1") (none, NewErr.nil)

/-- A run as user 1000 in which `os.Executable()` fails. -/
def sampleNoExecutableEnv : Env :=
  sampleEnv 1000 sampleInstallArgs (some "readlink /proc/self/exe: permission denied") none
    (none, NewErr.nil)

/-! ## Auxiliary lemmas -/

theorem bind_def {α β : Type} (m : Proc α) (k : α → Proc β) : (m >>= k) = Proc.andThen m k := rfl

theorem pure_def {α : Type} (a : α) : (pure a : Proc α) = Proc.ret a := rfl

theorem mem_andThen {α β : Type} (m : Proc α) (k : α → Proc β) (e : Event)
    (h : e ∈ (Proc.andThen m k).trace) :
    e ∈ m.trace ∨ ∃ a, m.step = Step.next a ∧ e ∈ (k a).trace := by
  unfold Proc.andThen at h
  split at h
  · rename_i a ha
    simp at h
    rcases h with h | h
    · exact Or.inl h
    · exact Or.inr ⟨a, ha, h⟩
  · exact Or.inl h

theorem helpCallbacks_step (n : Nat) : (helpCallbacks n).step = Step.next () := by
  induction n with
  | zero => rfl
  | succ k ih =>
    simp [helpCallbacks, helpText, println, emit, bind_def, Proc.andThen, ih]

theorem helpCallbacks_trace (n : Nat) :
    ∀ e ∈ (helpCallbacks n).trace, e.isUsageOutput = true := by
  induction n with
  | zero => simp [helpCallbacks, pure_def, Proc.ret]
  | succ k ih =>
    intro e he
    simp [helpCallbacks, helpText, println, emit, bind_def, Proc.andThen,
      helpCallbacks_step] at he
    rcases he with he | he | he | he
    · subst he; rfl
    · subst he; rfl
    · subst he; rfl
    · exact ih e he

theorem flagParse_step (f : Flags) :
    (flagParse f).step =
      match f.parseErr with
      | ParseErr.nil => Step.next ()
      | ParseErr.ErrHelp => Step.stop (Outcome.exited 0)
      | ParseErr.other _ => Step.stop (Outcome.exited 2) := by
  rcases f with ⟨n, d, e, u, un, h, pe⟩
  cases pe <;>
    simp [flagParse, bind_def, Proc.andThen, helpCallbacks_step, osExit, emit, pure_def,
      Proc.ret]

theorem slicesContains_four (a b c d : String) :
    slicesContains [a, b, c, d] "" = true ↔ (a = "" ∨ b = "" ∨ c = "" ∨ d = "") := by
  simp only [slicesContains]
  by_cases ha : a = "" <;> by_cases hb : b = "" <;> by_cases hc : c = "" <;>
    by_cases hd : d = "" <;> simp [ha, hb, hc, hd]

theorem init_step_parsed (f : Flags) (hp : f.parseErr = ParseErr.nil) :
    (init f).step = if slicesContains [f.flagName, f.flagDescription, f.flagExecPath, f.flagUser] "" = true ∧ f.flagUninstall = false ∨ f.flagUninstall = true ∧ f.flagName = "" then Step.stop (Outcome.exited 2) else Step.next () := by
  rcases f with ⟨n, d, e, u, un, h, pe⟩
  simp only at hp
  subst hp
  cases un <;>
  simp [init, bind_def, Proc.andThen, flagParse_step, osExit, emit, println, pure_def, Proc.ret] <;>
  split <;> simp_all

theorem init_step_ErrHelp (f : Flags) (hp : f.parseErr = ParseErr.ErrHelp) :
    (init f).step = Step.stop (Outcome.exited 0) := by
  simp [init, bind_def, Proc.andThen, flagParse_step, hp]

theorem init_step_other (f : Flags) (msg : String) (hp : f.parseErr = ParseErr.other msg) :
    (init f).step = Step.stop (Outcome.exited 2) := by
  simp [init, bind_def, Proc.andThen, flagParse_step, hp]

theorem flagParse_trace (f : Flags) : ∀ e ∈ (flagParse f).trace, e.isUsageOutput = true := by
  intro e he
  unfold flagParse at he
  rcases mem_andThen _ _ e he with h | ⟨_, _, h⟩
  · exact helpCallbacks_trace _ e h
  · split at h
    · simp [pure_def, Proc.ret] at h
    · simp [bind_def, Proc.andThen, emit, osExit] at h
      subst h; rfl
    · simp [bind_def, Proc.andThen, emit, osExit] at h
      rcases h with h | h <;> subst h <;> rfl

theorem init_trace (f : Flags) : ∀ e ∈ (init f).trace, e.isUsageOutput = true := by
  intro e he
  unfold init at he
  rcases mem_andThen _ _ e he with h | ⟨_, _, h⟩
  · exact flagParse_trace f e h
  · split at h
    · split at h
      · simp [bind_def, Proc.andThen, emit, osExit] at h
        subst h; rfl
      · simp [pure_def, Proc.ret] at h
    · split at h
      · simp [bind_def, Proc.andThen, emit, osExit, println] at h
        rcases h with h | h <;> subst h <;> rfl
      · simp [pure_def, Proc.ret] at h

theorem program_stop (env : Env) (f : Flags) (o : Outcome) (h : (init f).step = Step.stop o) :
    (program env f).trace = (init f).trace ∧ (program env f).step = Step.stop o := by
  simp [program, bind_def, Proc.andThen, h]

theorem program_next (env : Env) (f : Flags) (h : (init f).step = Step.next ()) :
    (program env f).trace = (init f).trace ++ (main env f).trace ∧
      (program env f).step = (main env f).step := by
  simp [program, bind_def, Proc.andThen, h]

theorem initOutcome_none (f : Flags) (h : initOutcome f = none) : (init f).step = Step.next () := by
  unfold initOutcome at h
  split at h
  · assumption
  · simp at h

theorem main_not_elevated (env : Env) (f : Flags) (h : (isElevated env).step = Step.next false) :
    (main env f).trace = (isElevated env).trace ++ (elevate env).trace ∧
      (main env f).step = (elevate env).step := by
  simp [main, bind_def, Proc.andThen, h]

theorem isElevated_step (env : Env) : ∃ b, (isElevated env).step = Step.next b := by
  by_cases hg : env.goos = "windows" <;>
    simp [isElevated, bind_def, Proc.andThen, emit, cmdRun, pure_def, Proc.ret, hg]

theorem launchService_cases (env : Env) (f : Flags) :
    ∃ err, (env.serviceNew ⟨f.flagName, f.flagName, f.flagDescription, f.flagExecPath, f.flagUser⟩).2 = err ∧
    ((err = NewErr.ErrNoServiceSystemDetected ∧
      (launchService env f).trace =
        [Event.call Fn.launchService,
          Event.serviceNew ⟨f.flagName, f.flagName, f.flagDescription, f.flagExecPath, f.flagUser⟩ err,
          Event.stderr "no service manager available\n"] ∧
      (launchService env f).step = Step.stop (Outcome.exited 60)) ∨
     (err ≠ NewErr.ErrNoServiceSystemDetected ∧
      (launchService env f).trace =
        [Event.call Fn.launchService,
          Event.serviceNew ⟨f.flagName, f.flagName, f.flagDescription, f.flagExecPath, f.flagUser⟩ err] ∧
      ∃ s, (launchService env f).step = Step.next s)) := by
  refine ⟨_, rfl, ?_⟩
  by_cases h : (env.serviceNew ⟨f.flagName, f.flagName, f.flagDescription, f.flagExecPath, f.flagUser⟩).2
      = NewErr.ErrNoServiceSystemDetected
  · left
    simp [launchService, bind_def, Proc.andThen, emit, pure_def, Proc.ret, println, osExit, h,
      ExitCodeNoServiceSystemAvailable]
  · right
    simp [launchService, bind_def, Proc.andThen, emit, pure_def, Proc.ret, println, osExit, h]

theorem main_elevated_cases (env : Env) (f : Flags)
    (hel : (isElevated env).step = Step.next true) :
    ∃ tail, (main env f).trace = (isElevated env).trace ++ (launchService env f).trace ++ tail ∧
    (((launchService env f).step = Step.stop (Outcome.exited 60) ∧ tail = [] ∧
        (main env f).step = Step.stop (Outcome.exited 60)) ∨
     ((launchService env f).step = Step.next none ∧ tail = [Event.call Fn.isInstalled] ∧
        (main env f).step = Step.stop Outcome.panicked) ∨
     (∃ sv, (launchService env f).step = Step.next (some sv) ∧
       ((f.flagUninstall = true ∧ sv.statusErr = StatusErr.ErrNotInstalled ∧
          tail = [Event.call Fn.isInstalled, Event.status sv.statusErr,
            Event.stderr "service is not installed\n"] ∧
          (main env f).step = Step.next ()) ∨
        (f.flagUninstall = true ∧ sv.statusErr ≠ StatusErr.ErrNotInstalled ∧
          sv.uninstallErr = none ∧
          tail = [Event.call Fn.isInstalled, Event.status sv.statusErr, Event.uninstall none,
            Event.stderr "service uninstalled successfully\n"] ∧
          (main env f).step = Step.next ()) ∨
        (f.flagUninstall = true ∧ sv.statusErr ≠ StatusErr.ErrNotInstalled ∧
          ∃ e, sv.uninstallErr = some e ∧
          tail = [Event.call Fn.isInstalled, Event.status sv.statusErr, Event.uninstall (some e),
            Event.stdout ("Failed to uninstall service: " ++ e ++ "\n")] ∧
          (main env f).step = Step.stop (Outcome.exited 1)) ∨
        (f.flagUninstall = false ∧ sv.statusErr ≠ StatusErr.ErrNotInstalled ∧
          tail = [Event.call Fn.isInstalled, Event.status sv.statusErr,
            Event.stderr "service already installed\n"] ∧
          (main env f).step = Step.next ()) ∨
        (f.flagUninstall = false ∧ sv.statusErr = StatusErr.ErrNotInstalled ∧
          sv.installErr = none ∧
          tail = [Event.call Fn.isInstalled, Event.status sv.statusErr, Event.install none,
            Event.platform,
            Event.stderr ("service installed and managed by: " ++ sv.platform ++ "\n")] ∧
          (main env f).step = Step.next ()) ∨
        (f.flagUninstall = false ∧ sv.statusErr = StatusErr.ErrNotInstalled ∧
          ∃ e, sv.installErr = some e ∧
          tail = [Event.call Fn.isInstalled, Event.status sv.statusErr, Event.install (some e),
            Event.stdout ("Failed to install service: " ++ e ++ "\n")] ∧
          (main env f).step = Step.stop (Outcome.exited 1))))) := by
  obtain ⟨err, -, hl⟩ := launchService_cases env f
  rcases hl with ⟨-, -, hst⟩ | ⟨-, -, s, hst⟩
  · refine ⟨[], ?_, Or.inl ⟨hst, rfl, ?_⟩⟩ <;>
      simp [main, bind_def, Proc.andThen, hel, hst]
  · cases s with
    | none =>
      refine ⟨[Event.call Fn.isInstalled], ?_, Or.inr (Or.inl ⟨hst, rfl, ?_⟩)⟩ <;>
        cases hu : f.flagUninstall <;>
        simp [main, bind_def, Proc.andThen, hel, hst, hu, isInstalled, emit, goPanic]
    | some sv =>
      rcases sv with ⟨st, ie, ue, pl⟩
      cases hu : f.flagUninstall <;> cases st <;> cases ie <;> cases ue <;>
        simp [main, bind_def, Proc.andThen, hel, hst, hu, isInstalled, emit, println, printf,
          osExit, pure_def, Proc.ret, serviceInstall, serviceUninstall, servicePlatform]

theorem elevate_cases (env : Env) :
    (∃ e, env.executableErr = some e ∧
      (elevate env).trace = [Event.call Fn.elevate, Event.osExecutable,
        Event.stdout ("Error getting executable path: " ++ e ++ "\n")] ∧
      (elevate env).step = Step.stop (Outcome.exited 1)) ∨
    (env.executableErr = none ∧
      (elevate env).trace = [Event.call Fn.elevate, Event.osExecutable] ∧
      (elevate env).step = Step.stop Outcome.panicked) ∨
    (∃ pre cmd, env.executableErr = none ∧ (∀ x ∈ pre, ∃ s, x = Event.stdout s) ∧
      (elevate env).trace =
        Event.call Fn.elevate :: Event.osExecutable :: (pre ++ [Event.run cmd none]) ∧
      (elevate env).step = Step.next ()) ∨
    (∃ pre cmd e, env.executableErr = none ∧ (∀ x ∈ pre, ∃ s, x = Event.stdout s) ∧
      (elevate env).trace =
        Event.call Fn.elevate :: Event.osExecutable ::
          (pre ++ [Event.run cmd (some e), Event.stdout ("Failed to elevate privileges: " ++ e ++ "\n")]) ∧
      (elevate env).step = Step.stop (Outcome.exited 61)) := by
  cases hx : env.executableErr with
  | some e =>
    left
    exact ⟨e, rfl, by simp [elevate, bind_def, Proc.andThen, emit, printf, osExit, hx]⟩
  | none =>
    right
    cases ha : env.osArgs with
    | nil =>
      left
      simp [elevate, bind_def, Proc.andThen, emit, printf, osExit, hx, ha, goPanic]
    | cons a0 args =>
      right
      by_cases hg : env.goos = "windows"
      · cases hr : env.runErr (execCommand "powershell" ["-Command", "Start-Process '" ++ env.executable
            ++ "' -ArgumentList '" ++ stringsJoin args "' '" ++ "' -Verb RunAs"]) with
        | none =>
          left
          refine ⟨[], (execCommand "powershell" ["-Command", "Start-Process '" ++ env.executable
            ++ "' -ArgumentList '" ++ stringsJoin args "' '" ++ "' -Verb RunAs"]), rfl, by simp, ?_⟩
          simp [elevate, bind_def, Proc.andThen, emit, printf, osExit, hx, ha, hg, cmdRun, hr,
            pure_def, Proc.ret]
        | some e =>
          right
          refine ⟨[], (execCommand "powershell" ["-Command", "Start-Process '" ++ env.executable
            ++ "' -ArgumentList '" ++ stringsJoin args "' '" ++ "' -Verb RunAs"]), e, rfl, by simp, ?_⟩
          simp [elevate, bind_def, Proc.andThen, emit, printf, osExit, hx, ha, hg, cmdRun, hr,
            pure_def, Proc.ret, ExitCodeElevationCanceled]
      · cases hr : env.runErr (execCommand "sudo" (env.executable :: args)) with
        | none =>
          left
          refine ⟨[Event.stdout ("Elevating privileges: " ++
            stringsJoin (execCommand "sudo" (env.executable :: args)).Args " " ++ "\n")],
            (execCommand "sudo" (env.executable :: args)), rfl,
            by simp, ?_⟩
          simp [elevate, bind_def, Proc.andThen, emit, printf, osExit, hx, ha, hg, cmdRun, hr,
            pure_def, Proc.ret]
        | some e =>
          right
          refine ⟨[Event.stdout ("Elevating privileges: " ++
            stringsJoin (execCommand "sudo" (env.executable :: args)).Args " " ++ "\n")],
            (execCommand "sudo" (env.executable :: args)), e, rfl,
            by simp, ?_⟩
          simp [elevate, bind_def, Proc.andThen, emit, printf, osExit, hx, ha, hg, cmdRun, hr,
            pure_def, Proc.ret, ExitCodeElevationCanceled]

/-- How `init` can end: exit code 0 or 2, or it returns. -/
theorem init_step_cases (f : Flags) :
    (∃ o, (init f).step = Step.stop o ∧ (o = Outcome.exited 0 ∨ o = Outcome.exited 2)) ∨
      (init f).step = Step.next () := by
  cases hp : f.parseErr with
  | nil =>
    rw [init_step_parsed f hp]
    split
    · exact Or.inl ⟨_, rfl, Or.inr rfl⟩
    · exact Or.inr rfl
  | ErrHelp => exact Or.inl ⟨_, init_step_ErrHelp f hp, Or.inl rfl⟩
  | other msg => exact Or.inl ⟨_, init_step_other f msg hp, Or.inr rfl⟩

/-- After a `flag.Parse()` that returned, `init` exits 2 exactly when a
required flag value is empty. -/
theorem init_reject_iff (f : Flags) (hp : f.parseErr = ParseErr.nil) :
    (init f).step = Step.stop (Outcome.exited 2) ↔
      ((f.flagUninstall = false ∧
        (f.flagName = "" ∨ f.flagDescription = "" ∨ f.flagExecPath = "" ∨ f.flagUser = "")) ∨
      (f.flagUninstall = true ∧ f.flagName = "")) := by
  have h4 := slicesContains_four f.flagName f.flagDescription f.flagExecPath f.flagUser
  rw [init_step_parsed f hp]
  split
  · rename_i h
    simp only [true_iff]
    rcases h with ⟨h1, h2⟩ | h
    · exact Or.inl ⟨h2, h4.1 h1⟩
    · exact Or.inr h
  · rename_i h
    simp only [reduceCtorEq, false_iff]
    rintro (⟨h1, h2⟩ | h')
    · exact h (Or.inl ⟨h4.2 h2, h1⟩)
    · exact h (Or.inr h')

/-- If `init` returns, `flag.Parse()` returned and no required flag value is
empty. -/
theorem init_accept (f : Flags) (hi : (init f).step = Step.next ()) :
    f.parseErr = ParseErr.nil ∧
      ¬ ((f.flagUninstall = false ∧
        (f.flagName = "" ∨ f.flagDescription = "" ∨ f.flagExecPath = "" ∨ f.flagUser = "")) ∨
      (f.flagUninstall = true ∧ f.flagName = "")) := by
  cases hp : f.parseErr with
  | nil =>
    refine ⟨rfl, ?_⟩
    rw [← init_reject_iff f hp, hi]
    simp
  | ErrHelp =>
    rw [init_step_ErrHelp f hp] at hi
    simp at hi
  | other msg =>
    rw [init_step_other f msg hp] at hi
    simp at hi

theorem initOutcome_some (f : Flags) (o : Outcome) (h : initOutcome f = some o) :
    (init f).step = Step.stop o := by
  unfold initOutcome at h
  split at h
  · simp at h
  · rename_i o' ho
    simp at h
    rw [ho, h]

theorem usageOutput_not_action (e : Event) (h : e.isUsageOutput = true) :
    e.isElevation = false ∧ e.isOrchestration = false ∧ e ≠ Event.call Fn.elevate ∧
      e.isFailedOperation = false ∧ e.isInstall = false ∧ e.isUninstall = false ∧
      e.isStatus = false := by
  cases e <;> simp [Event.isUsageOutput] at h <;>
    simp [Event.isElevation, Event.isOrchestration, Event.isFailedOperation, Event.isInstall,
      Event.isUninstall, Event.isStatus]

theorem filter_nil_of (p : Event → Bool) (l : List Event) (h : ∀ e ∈ l, p e = false) :
    l.filter p = [] := by
  rw [List.filter_eq_nil_iff]
  intro a ha
  simp [h a ha]

theorem isElevated_cases (env : Env) :
    (isElevated env).trace = [Event.call Fn.isElevated] ∨
    ∃ r, (isElevated env).trace =
      [Event.call Fn.isElevated, Event.run (execCommand "net" ["session"]) r] := by
  by_cases hg : env.goos = "windows" <;>
    simp [isElevated, bind_def, Proc.andThen, emit, cmdRun, pure_def, Proc.ret, hg]

theorem isElevated_props (env : Env) : ∀ e ∈ (isElevated env).trace,
    e ≠ Event.call Fn.elevate ∧ e.isOrchestration = false ∧ e.isFailedOperation = false ∧
      e.isInstall = false ∧ e.isUninstall = false ∧ e.isStatus = false := by
  intro e he
  rcases isElevated_cases env with h1 | ⟨r, h1⟩ <;> rw [h1] at he <;> simp at he
  · subst he; simp [Event.isOrchestration, Event.isFailedOperation, Event.isInstall,
      Event.isUninstall, Event.isStatus]
  · rcases he with he | he <;> subst he <;>
      simp [Event.isOrchestration, Event.isFailedOperation, Event.isInstall,
        Event.isUninstall, Event.isStatus]

theorem launchService_props (env : Env) (f : Flags) : ∀ e ∈ (launchService env f).trace,
    e ≠ Event.call Fn.elevate ∧ e.isFailedOperation = false ∧
      e.isInstall = false ∧ e.isUninstall = false ∧ e.isStatus = false := by
  intro e he
  obtain ⟨err, -, h⟩ := launchService_cases env f
  rcases h with ⟨-, ht, -⟩ | ⟨-, ht, -⟩ <;> rw [ht] at he <;> simp at he
  · rcases he with he | he | he <;> subst he <;>
      simp [Event.isFailedOperation, Event.isInstall, Event.isUninstall, Event.isStatus]
  · rcases he with he | he <;> subst he <;>
      simp [Event.isFailedOperation, Event.isInstall, Event.isUninstall, Event.isStatus]

theorem elevate_props (env : Env) : ∀ e ∈ (elevate env).trace,
    e.isOrchestration = false ∧ e.isFailedOperation = false := by
  intro e he
  rcases elevate_cases env with ⟨x, -, h2, -⟩ | ⟨-, h2, -⟩ | ⟨pre, cmd, -, hpre, h2, -⟩ |
    ⟨pre, cmd, x, -, hpre, h2, -⟩ <;> rw [h2] at he <;> simp at he
  · rcases he with he | he | he <;> subst he <;> exact ⟨rfl, rfl⟩
  · rcases he with he | he <;> subst he <;> exact ⟨rfl, rfl⟩
  · rcases he with he | he | he | he
    · subst he; exact ⟨rfl, rfl⟩
    · subst he; exact ⟨rfl, rfl⟩
    · obtain ⟨s, hs⟩ := hpre _ he
      subst hs; exact ⟨rfl, rfl⟩
    · subst he; exact ⟨rfl, rfl⟩
  · rcases he with he | he | he | he | he
    · subst he; exact ⟨rfl, rfl⟩
    · subst he; exact ⟨rfl, rfl⟩
    · obtain ⟨s, hs⟩ := hpre _ he
      subst hs; exact ⟨rfl, rfl⟩
    · subst he; exact ⟨rfl, rfl⟩
    · subst he; exact ⟨rfl, rfl⟩

theorem elevate_count (env : Env) : List.count (Event.call Fn.elevate) (elevate env).trace = 1 := by
  rcases elevate_cases env with ⟨e, -, h2, -⟩ | ⟨-, h2, -⟩ | ⟨pre, cmd, -, hpre, h2, -⟩ |
      ⟨pre, cmd, e, -, hpre, h2, -⟩ <;>
    rw [h2] <;> simp [List.count_cons, List.count_append] <;>
    (apply List.count_eq_zero.2
     intro hmem
     obtain ⟨s, hs⟩ := hpre _ hmem
     simp at hs)

theorem init_props (f : Flags) : ∀ e ∈ (init f).trace,
    e ≠ Event.call Fn.elevate ∧ e.isOrchestration = false ∧ e.isFailedOperation = false ∧
      e.isInstall = false ∧ e.isUninstall = false ∧ e.isStatus = false := by
  intro e he
  have h := usageOutput_not_action e (init_trace f e he)
  exact ⟨h.2.2.1, h.2.1, h.2.2.2⟩

/-- The shape of a run whose arguments were accepted and that is not elevated. -/
theorem run_not_elevated (env : Env) (f : Flags) (hi : (init f).step = Step.next ())
    (hel : (isElevated env).step = Step.next false) :
    runTrace env f = (init f).trace ++ (isElevated env).trace ++ (elevate env).trace ∧
      runOutcome env f = (elevate env).outcome := by
  obtain ⟨ht, hs⟩ := program_next env f hi
  obtain ⟨hmt, hms⟩ := main_not_elevated env f hel
  exact ⟨by rw [runTrace, ht, hmt, List.append_assoc], by simp [runOutcome, Proc.outcome, hs, hms]⟩

/-- The shape of a run whose arguments were accepted and that is elevated. -/
theorem run_elevated (env : Env) (f : Flags) (hi : (init f).step = Step.next ())
    (tail : List Event)
    (hm : (main env f).trace = (isElevated env).trace ++ (launchService env f).trace ++ tail) :
    runTrace env f =
        (init f).trace ++ (isElevated env).trace ++ (launchService env f).trace ++ tail ∧
      runOutcome env f = (main env f).outcome := by
  obtain ⟨ht, hs⟩ := program_next env f hi
  exact ⟨by rw [runTrace, ht, hm]; simp [List.append_assoc], by simp [runOutcome, Proc.outcome, hs]⟩

theorem run_rejected (env : Env) (f : Flags) (o : Outcome) (hi : (init f).step = Step.stop o) :
    runTrace env f = (init f).trace ∧ runOutcome env f = o := by
  obtain ⟨ht, hs⟩ := program_stop env f _ hi
  exact ⟨ht, by simp [runOutcome, Proc.outcome, hs]⟩

/-- A `service.New` call occurs only in an accepted, elevated run, with the
configuration built from the flags and the error the library answers. -/
theorem serviceNew_mem (env : Env) (f : Flags) (cfg : Config) (err : NewErr)
    (h : Event.serviceNew cfg err ∈ runTrace env f) :
    (init f).step = Step.next () ∧ (isElevated env).step = Step.next true ∧
      cfg = ⟨f.flagName, f.flagName, f.flagDescription, f.flagExecPath, f.flagUser⟩ ∧
      err = (env.serviceNew cfg).2 := by
  rcases init_step_cases f with ⟨o, hi, -⟩ | hi
  · rw [(run_rejected env f o hi).1] at h
    have := (init_props f _ h).2.1
    simp [Event.isOrchestration] at this
  · obtain ⟨b, hb⟩ := isElevated_step env
    cases b with
    | false =>
      rw [(run_not_elevated env f hi hb).1] at h
      simp only [List.mem_append] at h
      rcases h with (h | h) | h
      · have := (init_props f _ h).2.1
        simp [Event.isOrchestration] at this
      · have := (isElevated_props env _ h).2.1
        simp [Event.isOrchestration] at this
      · have := (elevate_props env _ h).1
        simp [Event.isOrchestration] at this
    | true =>
      refine ⟨hi, hb, ?_⟩
      obtain ⟨tail, hm, hc⟩ := main_elevated_cases env f hb
      rw [(run_elevated env f hi tail hm).1] at h
      simp only [List.mem_append] at h
      rcases h with ((h | h) | h) | h
      · have := (init_props f _ h).2.1
        simp [Event.isOrchestration] at this
      · have := (isElevated_props env _ h).2.1
        simp [Event.isOrchestration] at this
      · obtain ⟨err', herr, hl⟩ := launchService_cases env f
        rcases hl with ⟨-, ht, -⟩ | ⟨-, ht, -⟩ <;> rw [ht] at h <;> simp at h <;>
          obtain ⟨h1, h2⟩ := h <;> subst h1 <;> subst h2 <;> exact ⟨rfl, herr.symm⟩
      · rcases hc with ⟨-, ht, -⟩ | ⟨-, ht, -⟩ | ⟨sv, -, hc⟩
        · simp [ht] at h
        · simp [ht] at h
        · rcases hc with ⟨-, -, ht, -⟩ | ⟨-, -, -, ht, -⟩ | ⟨-, -, e, -, ht, -⟩ | ⟨-, -, ht, -⟩ |
            ⟨-, -, -, ht, -⟩ | ⟨-, -, e, -, ht, -⟩ <;> simp [ht] at h

theorem isInstalled_step (sv : Service) :
    (isInstalled (some sv)).step = Step.next (sv.statusErr != StatusErr.ErrNotInstalled) := by
  simp [isInstalled, bind_def, Proc.andThen, emit, pure_def, Proc.ret]

theorem isInstalled_true_iff (sv : Service) :
    (isInstalled (some sv)).step = Step.next true ↔ sv.statusErr ≠ StatusErr.ErrNotInstalled := by
  rw [isInstalled_step]
  cases sv.statusErr <;> simp

theorem isInstalled_false_iff (sv : Service) :
    (isInstalled (some sv)).step = Step.next false ↔ sv.statusErr = StatusErr.ErrNotInstalled := by
  rw [isInstalled_step]
  cases sv.statusErr <;> simp

theorem head_filter_isInstall (env : Env) (f : Flags) :
    ((init f).trace ++ (isElevated env).trace ++ (launchService env f).trace).filter
      Event.isInstall = [] := by
  apply filter_nil_of
  intro e he
  simp only [List.mem_append] at he
  rcases he with (he | he) | he
  · exact (init_props f e he).2.2.2.1
  · exact (isElevated_props env e he).2.2.2.1
  · exact (launchService_props env f e he).2.2.1

theorem head_filter_isUninstall (env : Env) (f : Flags) :
    ((init f).trace ++ (isElevated env).trace ++ (launchService env f).trace).filter
      Event.isUninstall = [] := by
  apply filter_nil_of
  intro e he
  simp only [List.mem_append] at he
  rcases he with (he | he) | he
  · exact (init_props f e he).2.2.2.2.1
  · exact (isElevated_props env e he).2.2.2.2.1
  · exact (launchService_props env f e he).2.2.2.1

theorem filter_isInstall_run (env : Env) (f : Flags) (tail : List Event) :
    ((init f).trace ++ (isElevated env).trace ++ (launchService env f).trace ++ tail).filter
      Event.isInstall = tail.filter Event.isInstall := by
  rw [List.filter_append, head_filter_isInstall, List.nil_append]

theorem filter_isUninstall_run (env : Env) (f : Flags) (tail : List Event) :
    ((init f).trace ++ (isElevated env).trace ++ (launchService env f).trace ++ tail).filter
      Event.isUninstall = tail.filter Event.isUninstall := by
  rw [List.filter_append, head_filter_isUninstall, List.nil_append]

/-- The shape of an elevated run in which `launchService` returns the non-nil
service `sv`: the tail of the trace after `launchService` and the way the run
ends, by mode, status and result of the operation. -/
theorem run_with_service (env : Env) (f : Flags) (sv : Service)
    (hi : (init f).step = Step.next ())
    (hel : (isElevated env).step = Step.next true)
    (hs : (launchService env f).step = Step.next (some sv)) :
    ∃ tail, runTrace env f =
        (init f).trace ++ (isElevated env).trace ++ (launchService env f).trace ++ tail ∧
      ((f.flagUninstall = true ∧ sv.statusErr = StatusErr.ErrNotInstalled ∧
          tail = [Event.call Fn.isInstalled, Event.status sv.statusErr,
            Event.stderr "service is not installed\n"] ∧
          runOutcome env f = Outcome.exited 0) ∨
        (f.flagUninstall = true ∧ sv.statusErr ≠ StatusErr.ErrNotInstalled ∧
          sv.uninstallErr = none ∧
          tail = [Event.call Fn.isInstalled, Event.status sv.statusErr, Event.uninstall none,
            Event.stderr "service uninstalled successfully\n"] ∧
          runOutcome env f = Outcome.exited 0) ∨
        (f.flagUninstall = true ∧ sv.statusErr ≠ StatusErr.ErrNotInstalled ∧
          ∃ e, sv.uninstallErr = some e ∧
          tail = [Event.call Fn.isInstalled, Event.status sv.statusErr, Event.uninstall (some e),
            Event.stdout ("Failed to uninstall service: " ++ e ++ "\n")] ∧
          runOutcome env f = Outcome.exited 1) ∨
        (f.flagUninstall = false ∧ sv.statusErr ≠ StatusErr.ErrNotInstalled ∧
          tail = [Event.call Fn.isInstalled, Event.status sv.statusErr,
            Event.stderr "service already installed\n"] ∧
          runOutcome env f = Outcome.exited 0) ∨
        (f.flagUninstall = false ∧ sv.statusErr = StatusErr.ErrNotInstalled ∧
          sv.installErr = none ∧
          tail = [Event.call Fn.isInstalled, Event.status sv.statusErr, Event.install none,
            Event.platform,
            Event.stderr ("service installed and managed by: " ++ sv.platform ++ "\n")] ∧
          runOutcome env f = Outcome.exited 0) ∨
        (f.flagUninstall = false ∧ sv.statusErr = StatusErr.ErrNotInstalled ∧
          ∃ e, sv.installErr = some e ∧
          tail = [Event.call Fn.isInstalled, Event.status sv.statusErr, Event.install (some e),
            Event.stdout ("Failed to install service: " ++ e ++ "\n")] ∧
          runOutcome env f = Outcome.exited 1)) := by
  obtain ⟨tail, hm, hc⟩ := main_elevated_cases env f hel
  obtain ⟨hrt, hro⟩ := run_elevated env f hi tail hm
  refine ⟨tail, hrt, ?_⟩
  rcases hc with ⟨hc, -⟩ | ⟨hc, -⟩ | ⟨sv', hc, hc'⟩
  · rw [hs] at hc; simp at hc
  · rw [hs] at hc; simp at hc
  · rw [hs] at hc
    simp only [Step.next.injEq, Option.some.injEq] at hc
    subst hc
    rw [hro]
    rcases hc' with ⟨h1, h2, h3, h4⟩ | ⟨h1, h2, h3, h4, h5⟩ | ⟨h1, h2, e, h3, h4, h5⟩ |
      ⟨h1, h2, h3, h4⟩ | ⟨h1, h2, h3, h4, h5⟩ | ⟨h1, h2, e, h3, h4, h5⟩
    · exact Or.inl ⟨h1, h2, h3, by simp [Proc.outcome, h4]⟩
    · exact Or.inr (Or.inl ⟨h1, h2, h3, h4, by simp [Proc.outcome, h5]⟩)
    · exact Or.inr (Or.inr (Or.inl ⟨h1, h2, e, h3, h4, by simp [Proc.outcome, h5]⟩))
    · exact Or.inr (Or.inr (Or.inr (Or.inl ⟨h1, h2, h3, by simp [Proc.outcome, h4]⟩)))
    · exact Or.inr (Or.inr (Or.inr (Or.inr (Or.inl ⟨h1, h2, h3, h4, by simp [Proc.outcome, h5]⟩))))
    · exact Or.inr (Or.inr (Or.inr (Or.inr (Or.inr ⟨h1, h2, e, h3, h4, by simp [Proc.outcome, h5]⟩))))

theorem afterElevate_append (pre l : List Event) (h : ∀ e ∈ pre, e ≠ Event.call Fn.elevate) :
    afterElevate (pre ++ l) = afterElevate l := by
  induction pre with
  | nil => rfl
  | cons x xs ih =>
    have hx : x ≠ Event.call Fn.elevate := h x (List.mem_cons_self x xs)
    have hxs : ∀ e ∈ xs, e ≠ Event.call Fn.elevate :=
      fun e he => h e (List.mem_cons_of_mem x he)
    simp [afterElevate, hx, ih hxs]

theorem afterElevate_nil (l : List Event) (h : ∀ e ∈ l, e ≠ Event.call Fn.elevate) :
    afterElevate l = [] := by
  have := afterElevate_append l [] h
  simpa [afterElevate] using this

theorem any_stdout (pre : List Event) (h : ∀ x ∈ pre, ∃ s, x = Event.stdout s) :
    pre.any Event.isFailedRun = false := by
  rw [List.any_eq_false]
  intro x hx
  obtain ⟨s, hs⟩ := h x hx
  subst hs
  simp [Event.isFailedRun]

/-- The shape of a run whose arguments were accepted and that is not elevated,
by the way `elevate` goes. -/
theorem run_not_elevated_cases (env : Env) (f : Flags) (hi : (init f).step = Step.next ())
    (hel : (isElevated env).step = Step.next false) :
    (∃ msg, env.executableErr = some msg ∧
      afterElevate (runTrace env f) = [Event.osExecutable,
        Event.stdout ("Error getting executable path: " ++ msg ++ "\n")] ∧
      runOutcome env f = Outcome.exited 1) ∨
    (afterElevate (runTrace env f) = [Event.osExecutable] ∧
      runOutcome env f = Outcome.panicked) ∨
    (∃ pre cmd, (∀ x ∈ pre, ∃ s, x = Event.stdout s) ∧
      afterElevate (runTrace env f) = Event.osExecutable :: (pre ++ [Event.run cmd none]) ∧
      runOutcome env f = Outcome.exited 0) ∨
    (∃ pre cmd e, (∀ x ∈ pre, ∃ s, x = Event.stdout s) ∧
      afterElevate (runTrace env f) = Event.osExecutable ::
        (pre ++ [Event.run cmd (some e),
          Event.stdout ("Failed to elevate privileges: " ++ e ++ "\n")]) ∧
      runOutcome env f = Outcome.exited 61) := by
  obtain ⟨hrt, hro⟩ := run_not_elevated env f hi hel
  have hpre : ∀ e ∈ (init f).trace ++ (isElevated env).trace, e ≠ Event.call Fn.elevate := by
    intro e he
    simp only [List.mem_append] at he
    rcases he with he | he
    · exact (init_props f e he).1
    · exact (isElevated_props env e he).1
  rw [hrt, hro, afterElevate_append _ _ hpre]
  rcases elevate_cases env with ⟨x, hx, h2, h3⟩ | ⟨-, h2, h3⟩ | ⟨pre, cmd, -, hp, h2, h3⟩ |
    ⟨pre, cmd, x, -, hp, h2, h3⟩
  · exact Or.inl ⟨x, hx, by rw [h2]; simp [afterElevate], by simp [Proc.outcome, h3]⟩
  · exact Or.inr (Or.inl ⟨by rw [h2]; simp [afterElevate], by simp [Proc.outcome, h3]⟩)
  · exact Or.inr (Or.inr (Or.inl ⟨pre, cmd, hp, by rw [h2]; simp [afterElevate],
      by simp [Proc.outcome, h3]⟩))
  · exact Or.inr (Or.inr (Or.inr ⟨pre, cmd, x, hp, by rw [h2]; simp [afterElevate],
      by simp [Proc.outcome, h3]⟩))

/-- An elevated run never enters `elevate`, never ends with 61, and ends with 1
only after an `Install` or `Uninstall` call that returned an error. -/
theorem run_elevated_summary (env : Env) (f : Flags) (hi : (init f).step = Step.next ())
    (hel : (isElevated env).step = Step.next true) :
    (∀ e ∈ runTrace env f, e ≠ Event.call Fn.elevate) ∧
    runOutcome env f ≠ Outcome.exited 61 ∧
    (runOutcome env f = Outcome.exited 1 → ∃ e ∈ runTrace env f, e.isFailedOperation = true) := by
  obtain ⟨tail, hm, hc⟩ := main_elevated_cases env f hel
  obtain ⟨hrt, hro⟩ := run_elevated env f hi tail hm
  have hpre : ∀ e ∈ (init f).trace ++ (isElevated env).trace ++ (launchService env f).trace,
      e ≠ Event.call Fn.elevate := by
    intro e he
    simp only [List.mem_append] at he
    rcases he with (he | he) | he
    · exact (init_props f e he).1
    · exact (isElevated_props env e he).1
    · exact (launchService_props env f e he).1
  rw [hrt, hro]
  rcases hc with ⟨-, ht, hs⟩ | ⟨-, ht, hs⟩ | ⟨sv, -, hc⟩
  · refine ⟨?_, by simp [Proc.outcome, hs], by simp [Proc.outcome, hs]⟩
    intro e he0
    rcases List.mem_append.1 he0 with he | he
    · exact hpre e he
    · simp [ht] at he
  · refine ⟨?_, by simp [Proc.outcome, hs], by simp [Proc.outcome, hs]⟩
    intro e he0
    rcases List.mem_append.1 he0 with he | he
    · exact hpre e he
    · simp [ht] at he
      simp [he]
  · have hmem : ∀ l : List Event, (∀ e ∈ l, e ≠ Event.call Fn.elevate) →
        ∀ e ∈ (init f).trace ++ (isElevated env).trace ++ (launchService env f).trace ++ l,
          e ≠ Event.call Fn.elevate := by
      intro l hl e he0
      rcases List.mem_append.1 he0 with he | he
      · exact hpre e he
      · exact hl e he
    rcases hc with ⟨-, -, ht, hs⟩ | ⟨-, -, -, ht, hs⟩ | ⟨-, -, x, -, ht, hs⟩ | ⟨-, -, ht, hs⟩ |
      ⟨-, -, -, ht, hs⟩ | ⟨-, -, x, -, ht, hs⟩
    · exact ⟨hmem tail (by simp [ht]), by simp [Proc.outcome, hs], by simp [Proc.outcome, hs]⟩
    · exact ⟨hmem tail (by simp [ht]), by simp [Proc.outcome, hs], by simp [Proc.outcome, hs]⟩
    · exact ⟨hmem tail (by simp [ht]), by simp [Proc.outcome, hs],
        fun _ => ⟨Event.uninstall (some x), List.mem_append_right _ (by simp [ht]), rfl⟩⟩
    · exact ⟨hmem tail (by simp [ht]), by simp [Proc.outcome, hs], by simp [Proc.outcome, hs]⟩
    · exact ⟨hmem tail (by simp [ht]), by simp [Proc.outcome, hs], by simp [Proc.outcome, hs]⟩
    · exact ⟨hmem tail (by simp [ht]), by simp [Proc.outcome, hs],
        fun _ => ⟨Event.install (some x), List.mem_append_right _ (by simp [ht]), rfl⟩⟩

theorem exit_61_iff (env : Env) (f : Flags) :
    runOutcome env f = Outcome.exited 61 ↔ elevationCommandFailed (runTrace env f) = true := by
  unfold elevationCommandFailed
  rcases init_step_cases f with ⟨o, hi, ho⟩ | hi
  · obtain ⟨hrt, hro⟩ := run_rejected env f o hi
    rw [hro, hrt, afterElevate_nil _ (fun e he => (init_props f e he).1)]
    rcases ho with ho | ho <;> simp [ho]
  · obtain ⟨b, hb⟩ := isElevated_step env
    cases b with
    | true =>
      obtain ⟨h1, h2, -⟩ := run_elevated_summary env f hi hb
      rw [afterElevate_nil _ h1]
      simp [h2]
    | false =>
      rcases run_not_elevated_cases env f hi hb with ⟨msg, -, h1, h2⟩ | ⟨h1, h2⟩ |
        ⟨pre, cmd, hp, h1, h2⟩ | ⟨pre, cmd, e, hp, h1, h2⟩ <;> rw [h1, h2]
      · simp [Event.isFailedRun]
      · simp [Event.isFailedRun]
      · simp [Event.isFailedRun, any_stdout pre hp]
      · simp [Event.isFailedRun]

theorem exit_61_run (env : Env) (f : Flags) (h : runOutcome env f = Outcome.exited 61) :
    (init f).step = Step.next () ∧ (isElevated env).step = Step.next false := by
  rcases init_step_cases f with ⟨o, hi, ho⟩ | hi
  · rw [(run_rejected env f o hi).2] at h
    rcases ho with ho | ho <;> rw [ho] at h <;> simp at h
  · obtain ⟨b, hb⟩ := isElevated_step env
    cases b with
    | true => exact absurd h (run_elevated_summary env f hi hb).2.1
    | false => exact ⟨hi, hb⟩

theorem intercalate_go (sep acc y : String) (rest : List String) :
    String.intercalate.go acc sep (y :: rest) = acc ++ sep ++ stringsJoin (y :: rest) sep := by
  induction rest generalizing acc y with
  | nil => simp [String.intercalate.go, stringsJoin]
  | cons z zs ih =>
    rw [String.intercalate.go, ih]
    simp [stringsJoin, String.append_assoc]

theorem stringsJoin_eq_intercalate (l : List String) (sep : String) :
    stringsJoin l sep = String.intercalate sep l := by
  cases l with
  | nil => rfl
  | cons x xs =>
    cases xs with
    | nil => rfl
    | cons y ys =>
      rw [String.intercalate, intercalate_go]
      simp [stringsJoin, String.append_assoc]

/-! ## The claims -/

/-- C1: once `flag.Parse()` has returned, so that the argument validation of
`init` is reached, `init` ends the process with exit code 2 exactly when, in
install mode, one of name, description, exec, user is empty, or, in uninstall
mode, name is empty.  Over all command lines, `init` ends with exit code 2
exactly in that case or when `flag.Parse()` itself ends with a parse error
other than `flag.ErrHelp`.  A run that `init` ends with exit code 2, either
way, performs nothing but output on standard error and `flag.Usage()`: no
elevation, status, install or uninstall action. -/
theorem init_exits_2_iff_argument_missing (f : Flags) :
    (f.parseErr = ParseErr.nil →
      (initOutcome f = some (Outcome.exited 2) ↔
        ((f.flagUninstall = false ∧
          (f.flagName = "" ∨ f.flagDescription = "" ∨ f.flagExecPath = "" ∨ f.flagUser = "")) ∨
        (f.flagUninstall = true ∧ f.flagName = "")))) ∧
    (initOutcome f = some (Outcome.exited 2) ↔
      ((∃ msg, f.parseErr = ParseErr.other msg) ∨
        (f.parseErr = ParseErr.nil ∧
          ((f.flagUninstall = false ∧
            (f.flagName = "" ∨ f.flagDescription = "" ∨ f.flagExecPath = "" ∨
              f.flagUser = "")) ∨
          (f.flagUninstall = true ∧ f.flagName = ""))))) ∧
    (initOutcome f = some (Outcome.exited 2) →
      ∀ env : Env, runOutcome env f = Outcome.exited 2 ∧
        ∀ e ∈ runTrace env f,
          e.isUsageOutput = true ∧ e.isElevation = false ∧ e.isOrchestration = false) := by
  have hio : ∀ o, initOutcome f = some o ↔ (init f).step = Step.stop o := by
    intro o
    constructor
    · exact initOutcome_some f o
    · intro h
      simp [initOutcome, h]
  refine ⟨?_, ?_, ?_⟩
  · intro hp
    rw [hio, init_reject_iff f hp]
  · rw [hio]
    cases hp : f.parseErr with
    | nil =>
      rw [init_reject_iff f hp]
      simp
    | ErrHelp =>
      rw [init_step_ErrHelp f hp]
      simp
    | other msg =>
      rw [init_step_other f msg hp]
      simp
  · intro h env
    have hs := initOutcome_some f _ h
    obtain ⟨ht, hst⟩ := program_stop env f _ hs
    refine ⟨by simp [runOutcome, Proc.outcome, hst], ?_⟩
    intro e he
    rw [runTrace, ht] at he
    have hu := init_trace f e he
    have ha := usageOutput_not_action e hu
    exact ⟨hu, ha.1, ha.2.1⟩

/-- Witness for C1: without `-user` the parsed install command line is
rejected by the validation with exit code 2; with the undefined flag `-bogus`
after all four required flags `flag.Parse()` ends `init` with exit code 2; and
with `-h` alone `flag.Parse()` ends `init` with exit code 0 before any
validation. -/
theorem init_exits_2_iff_argument_missing_witness :
    sampleMissingUserFlags.parseErr = ParseErr.nil ∧
      initOutcome sampleMissingUserFlags = some (Outcome.exited 2) ∧
      runOutcome sampleInstallFailsEnv sampleMissingUserFlags = Outcome.exited 2 ∧
      initOutcome sampleUndefinedFlagFlags = some (Outcome.exited 2) ∧
      initOutcome sampleHelpRequestFlags = some (Outcome.exited 0) :=
  ⟨rfl,
    ((init_exits_2_iff_argument_missing sampleMissingUserFlags).1 rfl).2
      (Or.inl ⟨rfl, Or.inr (Or.inr (Or.inr rfl))⟩),
    ((init_exits_2_iff_argument_missing sampleMissingUserFlags).2.2 (by decide)
      sampleInstallFailsEnv).1,
    (init_exits_2_iff_argument_missing sampleUndefinedFlagFlags).2.1.2
      (Or.inl ⟨"flag provided but not defined: -bogus", rfl⟩),
    by decide⟩

/-- C2: in a run whose arguments were accepted and in which `isElevated()`
returns false, `elevate` is entered exactly once, the run consists of the
actions of `init`, `isElevated` and `elevate` only, it ends the way `elevate`
ends, and no action of the orchestration logic (`launchService`, `isInstalled`,
any call into the service library) is performed, whatever the elevation
command returns. -/
theorem not_elevated_only_elevates (env : Env) (f : Flags)
    (hacc : initOutcome f = none)
    (hel : (isElevated env).step = Step.next false) :
    List.count (Event.call Fn.elevate) (runTrace env f) = 1 ∧
    (∀ e ∈ runTrace env f, e.isOrchestration = false) ∧
    runTrace env f = (init f).trace ++ (isElevated env).trace ++ (elevate env).trace ∧
    runOutcome env f = (elevate env).outcome := by
  have hi := initOutcome_none f hacc
  obtain ⟨hrt, hro⟩ := run_not_elevated env f hi hel
  refine ⟨?_, ?_, hrt, hro⟩
  · rw [hrt, List.count_append, List.count_append, elevate_count,
      List.count_eq_zero.2 (fun h => (init_props f _ h).1 rfl),
      List.count_eq_zero.2 (fun h => (isElevated_props env _ h).1 rfl)]
  · intro e he
    rw [hrt] at he
    simp only [List.mem_append] at he
    rcases he with (he | he) | he
    · exact (init_props f e he).2.1
    · exact (isElevated_props env e he).2.1
    · exact (elevate_props env e he).1

/-- Witness for C2: as user 1000 the run enters `elevate` once. -/
theorem not_elevated_only_elevates_witness :
    initOutcome sampleInstallFlags = none ∧
      (isElevated sampleSudoFailsEnv).step = Step.next false ∧
      List.count (Event.call Fn.elevate) (runTrace sampleSudoFailsEnv sampleInstallFlags) = 1 :=
  ⟨by decide, by decide,
    (not_elevated_only_elevates sampleSudoFailsEnv sampleInstallFlags (by decide) (by decide)).1⟩

/-- C3: whatever the flag values, a run in which `service.New` answers
`ErrNoServiceSystemDetected` ends with exit code 60, makes no status, install
or uninstall call, and its last two actions are that `service.New` call and the
message "no service manager available". -/
theorem no_service_system_exits_60 (env : Env) (f : Flags) (cfg : Config)
    (h : Event.serviceNew cfg NewErr.ErrNoServiceSystemDetected ∈ runTrace env f) :
    runOutcome env f = Outcome.exited 60 ∧
    (∀ e ∈ runTrace env f,
      e.isStatus = false ∧ e.isInstall = false ∧ e.isUninstall = false) ∧
    ∃ pre, runTrace env f =
      pre ++ [Event.serviceNew cfg NewErr.ErrNoServiceSystemDetected,
        Event.stderr "no service manager available\n"] := by
  obtain ⟨hi, hb, hcfg, herr⟩ := serviceNew_mem env f cfg _ h
  obtain ⟨err', herr', hl⟩ := launchService_cases env f
  rw [← hcfg, ← herr] at herr'
  subst herr'
  rcases hl with ⟨-, hlt, hls⟩ | ⟨hne, -, -⟩
  · obtain ⟨tail, hm, hc⟩ := main_elevated_cases env f hb
    have htail : tail = [] ∧ (main env f).step = Step.stop (Outcome.exited 60) := by
      rcases hc with ⟨-, ht, hs⟩ | ⟨hc, -⟩ | ⟨sv, hc, -⟩
      · exact ⟨ht, hs⟩
      · rw [hls] at hc; simp at hc
      · rw [hls] at hc; simp at hc
    obtain ⟨ht, hs⟩ := htail
    subst ht
    obtain ⟨hrt, hro⟩ := run_elevated env f hi [] hm
    refine ⟨by rw [hro]; simp [Proc.outcome, hs], ?_, ?_⟩
    · intro e he
      rw [hrt] at he
      simp only [List.mem_append, List.not_mem_nil, or_false] at he
      rcases he with (he | he) | he
      · have hp := init_props f e he
        exact ⟨hp.2.2.2.2.2, hp.2.2.2.1, hp.2.2.2.2.1⟩
      · have hp := isElevated_props env e he
        exact ⟨hp.2.2.2.2.2, hp.2.2.2.1, hp.2.2.2.2.1⟩
      · have hp := launchService_props env f e he
        exact ⟨hp.2.2.2.2, hp.2.2.1, hp.2.2.2.1⟩
    · refine ⟨(init f).trace ++ (isElevated env).trace ++ [Event.call Fn.launchService], ?_⟩
      rw [hrt, hlt, ← hcfg]
      simp
  · exact absurd rfl hne

/-- Witness for C3: a root run on a machine without a service manager exits
60. -/
theorem no_service_system_exits_60_witness :
    Event.serviceNew sampleConfig NewErr.ErrNoServiceSystemDetected ∈
        runTrace sampleNoServiceSystemEnv sampleInstallFlags ∧
      runOutcome sampleNoServiceSystemEnv sampleInstallFlags = Outcome.exited 60 :=
  ⟨by decide,
    (no_service_system_exits_60 sampleNoServiceSystemEnv sampleInstallFlags sampleConfig
      (by decide)).1⟩

/-- C4: in an elevated install-mode run (arguments accepted, `-uninstall` not
set, `launchService` returns a service): `Uninstall` is never called; if
`isInstalled` reports true the run exits 0 without any `Install` call; if it
reports false `Install` is called exactly once and the exit code is 0 when the
call returns no error and 1 when it returns one. -/
theorem install_mode_run (env : Env) (f : Flags) (sv : Service)
    (hacc : initOutcome f = none) (hun : f.flagUninstall = false)
    (hel : (isElevated env).step = Step.next true)
    (hs : (launchService env f).step = Step.next (some sv)) :
    (runTrace env f).filter Event.isUninstall = [] ∧
    ((isInstalled (some sv)).step = Step.next true →
      runOutcome env f = Outcome.exited 0 ∧ (runTrace env f).filter Event.isInstall = []) ∧
    ((isInstalled (some sv)).step = Step.next false →
      (runTrace env f).filter Event.isInstall = [Event.install sv.installErr] ∧
      runOutcome env f = Outcome.exited (if sv.installErr = none then 0 else 1)) := by
  have hi := initOutcome_none f hacc
  obtain ⟨tail, hrt, hc⟩ := run_with_service env f sv hi hel hs
  simp only [isInstalled_true_iff, isInstalled_false_iff, hrt, filter_isInstall_run,
    filter_isUninstall_run]
  rcases hc with ⟨h1, -⟩ | ⟨h1, -⟩ | ⟨h1, -⟩ | ⟨-, h2, h4, h5⟩ | ⟨-, h2, h3, h4, h5⟩ |
    ⟨-, h2, e, h3, h4, h5⟩
  · rw [hun] at h1; simp at h1
  · rw [hun] at h1; simp at h1
  · rw [hun] at h1; simp at h1
  · simp [h2, h4, h5, Event.isInstall, Event.isUninstall]
  · simp [h2, h3, h4, h5, Event.isInstall, Event.isUninstall]
  · simp [h2, h3, h4, h5, Event.isInstall, Event.isUninstall]

/-- Witness for C4: a root install run whose `Install` call fails makes that
one call and exits 1. -/
theorem install_mode_run_witness :
    (runTrace sampleInstallFailsEnv sampleInstallFlags).filter Event.isInstall =
        [Event.install (some "permission denied")] ∧
      runOutcome sampleInstallFailsEnv sampleInstallFlags = Outcome.exited 1 :=
  (install_mode_run sampleInstallFailsEnv sampleInstallFlags
    (sampleService StatusErr.ErrNotInstalled (some "permission denied") none)
    (by decide) (by decide) (by decide) (by decide)).2.2 (by decide)

/-- C5: in an elevated uninstall-mode run (arguments accepted, `-uninstall`
set, `launchService` returns a service): `Install` is never called; if
`isInstalled` reports false the run exits 0 without any `Uninstall` call;
otherwise `Uninstall` is called exactly once and the exit code is 1 when the
call returns an error and 0 when it returns none. -/
theorem uninstall_mode_run (env : Env) (f : Flags) (sv : Service)
    (hacc : initOutcome f = none) (hun : f.flagUninstall = true)
    (hel : (isElevated env).step = Step.next true)
    (hs : (launchService env f).step = Step.next (some sv)) :
    (runTrace env f).filter Event.isInstall = [] ∧
    ((isInstalled (some sv)).step = Step.next false →
      runOutcome env f = Outcome.exited 0 ∧ (runTrace env f).filter Event.isUninstall = []) ∧
    ((isInstalled (some sv)).step = Step.next true →
      (runTrace env f).filter Event.isUninstall = [Event.uninstall sv.uninstallErr] ∧
      runOutcome env f = Outcome.exited (if sv.uninstallErr = none then 0 else 1)) := by
  have hi := initOutcome_none f hacc
  obtain ⟨tail, hrt, hc⟩ := run_with_service env f sv hi hel hs
  simp only [isInstalled_true_iff, isInstalled_false_iff, hrt, filter_isInstall_run,
    filter_isUninstall_run]
  rcases hc with ⟨-, h2, h4, h5⟩ | ⟨-, h2, h3, h4, h5⟩ | ⟨-, h2, e, h3, h4, h5⟩ | ⟨h1, -⟩ |
    ⟨h1, -⟩ | ⟨h1, -⟩
  · simp [h2, h4, h5, Event.isInstall, Event.isUninstall]
  · simp [h2, h3, h4, h5, Event.isInstall, Event.isUninstall]
  · simp [h2, h3, h4, h5, Event.isInstall, Event.isUninstall]
  · rw [hun] at h1; simp at h1
  · rw [hun] at h1; simp at h1
  · rw [hun] at h1; simp at h1

/-- Witness for C5: a root uninstall run on an installed service makes one
`Uninstall` call and exits 0. -/
theorem uninstall_mode_run_witness :
    (runTrace sampleUninstallEnv sampleUninstallFlags).filter Event.isUninstall =
        [Event.uninstall none] ∧
      runOutcome sampleUninstallEnv sampleUninstallFlags = Outcome.exited 0 :=
  (uninstall_mode_run sampleUninstallEnv sampleUninstallFlags
    (sampleService StatusErr.nil none none)
    (by decide) (by decide) (by decide) (by decide)).2.2 (by decide)

/-- C6: on either platform a run ends with exit code 61 exactly when it was
not elevated and a command run inside `elevate` returned an error; such a run
passed argument validation (it is not a usage-error run) and performs no
action of the orchestration logic: no `service.New`, status, install or
uninstall call, hence no failed install or uninstall. -/
theorem exit_61_iff_elevation_command_failed (env : Env) (f : Flags) :
    (runOutcome env f = Outcome.exited ExitCodeElevationCanceled ↔
      ((isElevated env).step = Step.next false ∧
        elevationCommandFailed (runTrace env f) = true)) ∧
    (runOutcome env f = Outcome.exited ExitCodeElevationCanceled →
      initOutcome f = none ∧
      ∀ e ∈ runTrace env f, e.isOrchestration = false ∧ e.isFailedOperation = false) := by
  have h61 : ExitCodeElevationCanceled = 61 := rfl
  rw [h61]
  constructor
  · constructor
    · intro h
      exact ⟨(exit_61_run env f h).2, (exit_61_iff env f).1 h⟩
    · intro h
      exact (exit_61_iff env f).2 h.2
  · intro h
    obtain ⟨hi, hb⟩ := exit_61_run env f h
    refine ⟨by simp [initOutcome, hi], ?_⟩
    intro e he
    rw [(run_not_elevated env f hi hb).1] at he
    simp only [List.mem_append] at he
    rcases he with (he | he) | he
    · exact ⟨(init_props f e he).2.1, (init_props f e he).2.2.1⟩
    · exact ⟨(isElevated_props env e he).2.1, (isElevated_props env e he).2.2.1⟩
    · exact elevate_props env e he

/-- Witness for C6: as user 1000 with a failing `sudo` the run exits 61. -/
theorem exit_61_iff_elevation_command_failed_witness :
    elevationCommandFailed (runTrace sampleSudoFailsEnv sampleInstallFlags) = true ∧
      runOutcome sampleSudoFailsEnv sampleInstallFlags = Outcome.exited 61 :=
  ⟨by decide,
    (exit_61_iff_elevation_command_failed sampleSudoFailsEnv sampleInstallFlags).1.2
      ⟨by decide, by decide⟩⟩

/-- C7 (as amended): a run ends with exit code 1 only if an `Install` or
`Uninstall` call returned an error, or if the run was not elevated and
`os.Executable()` returned an error in `elevate`, in which case `elevate` does
nothing after reporting that error; and whenever a command run inside
`elevate` returns an error the run ends with 61. -/
theorem exit_1_only_failed_operation_or_executable_error (env : Env) (f : Flags) :
    (runOutcome env f = Outcome.exited 1 →
      (∃ e ∈ runTrace env f, e.isFailedOperation = true) ∨
      (∃ msg, env.executableErr = some msg ∧ (isElevated env).step = Step.next false ∧
        afterElevate (runTrace env f) =
          [Event.osExecutable, Event.stdout ("Error getting executable path: " ++ msg ++ "\n")])) ∧
    (elevationCommandFailed (runTrace env f) = true →
      runOutcome env f = Outcome.exited ExitCodeElevationCanceled) := by
  refine ⟨?_, (exit_61_iff env f).2⟩
  intro h
  rcases init_step_cases f with ⟨o, hi, ho⟩ | hi
  · rw [(run_rejected env f o hi).2] at h
    rcases ho with ho | ho <;> rw [ho] at h <;> simp at h
  · obtain ⟨b, hb⟩ := isElevated_step env
    cases b with
    | true => exact Or.inl ((run_elevated_summary env f hi hb).2.2 h)
    | false =>
      right
      rcases run_not_elevated_cases env f hi hb with ⟨msg, hx, h1, -⟩ | ⟨-, h2⟩ |
        ⟨pre, cmd, -, -, h2⟩ | ⟨pre, cmd, e, -, -, h2⟩
      · exact ⟨msg, hx, hb, h1⟩
      · rw [h2] at h; simp at h
      · rw [h2] at h; simp at h
      · rw [h2] at h; simp at h

/-- Counterexample to C7 as stated: as user 1000, when `os.Executable()` fails
the run exits 1, not 61, and makes no `Install` or `Uninstall` call. -/
theorem exit_1_without_failed_operation :
    runOutcome sampleNoExecutableEnv sampleInstallFlags = Outcome.exited 1 ∧
      (runTrace sampleNoExecutableEnv sampleInstallFlags).any Event.isInstall = false ∧
      (runTrace sampleNoExecutableEnv sampleInstallFlags).any Event.isUninstall = false ∧
      runTrace sampleNoExecutableEnv sampleInstallFlags =
        [Event.call Fn.isElevated, Event.call Fn.elevate, Event.osExecutable,
          Event.stdout
            "Error getting executable path: readlink /proc/self/exe: permission denied\n"] := by
  decide

/-- Witness for C7 as amended: the failed install run exits 1 after an
`Install` call that returned an error, and the run with a failing `sudo` exits
61. -/
theorem exit_1_only_failed_operation_or_executable_error_witness :
    (runOutcome sampleInstallFailsEnv sampleInstallFlags = Outcome.exited 1 ∧
      (runTrace sampleInstallFailsEnv sampleInstallFlags).any Event.isFailedOperation = true) ∧
    (elevationCommandFailed (runTrace sampleSudoFailsEnv sampleInstallFlags) = true ∧
      runOutcome sampleSudoFailsEnv sampleInstallFlags = Outcome.exited ExitCodeElevationCanceled) :=
  ⟨⟨by decide,
      (Or.elim
        ((exit_1_only_failed_operation_or_executable_error sampleInstallFailsEnv
          sampleInstallFlags).1 (by decide))
        (fun _ => by decide) (fun _ => by decide))⟩,
    ⟨by decide,
      (exit_1_only_failed_operation_or_executable_error sampleSudoFailsEnv
        sampleInstallFlags).2 (by decide)⟩⟩

/-- C8: on the POSIX branch of `elevate` (platform not "windows", executable
path `env.executable` obtained, `os.Args` being `a0` followed by `args`) the
command run is `sudo` with argument vector `sudo`, the executable path, then
`args` unchanged and in order; the line printed just before is "Elevating
privileges: " followed by that vector joined with single spaces; nothing is
run afterwards. -/
theorem elevate_posix_runs_sudo (env : Env) (a0 : String) (args : List String)
    (hg : env.goos ≠ "windows") (hx : env.executableErr = none)
    (ha : env.osArgs = a0 :: args) :
    ∃ post, (elevate env).trace =
      [Event.call Fn.elevate, Event.osExecutable,
        Event.stdout ("Elevating privileges: " ++
          stringsJoin ("sudo" :: env.executable :: args) " " ++ "\n"),
        Event.run (Cmd.mk "sudo" ("sudo" :: env.executable :: args))
          (env.runErr (Cmd.mk "sudo" ("sudo" :: env.executable :: args)))] ++ post ∧
      (∀ e ∈ post, ∃ s, e = Event.stdout s) ∧
      stringsJoin ("sudo" :: env.executable :: args) " " =
        String.intercalate " " ("sudo" :: env.executable :: args) := by
  have hj := stringsJoin_eq_intercalate ("sudo" :: env.executable :: args) " "
  cases hr : env.runErr (Cmd.mk "sudo" ("sudo" :: env.executable :: args)) with
  | none =>
    refine ⟨[], ?_, by simp, hj⟩
    simp [elevate, bind_def, Proc.andThen, emit, printf, osExit, hx, ha, hg, cmdRun, hr,
      pure_def, Proc.ret, execCommand]
  | some e =>
    refine ⟨[Event.stdout ("Failed to elevate privileges: " ++ e ++ "\n")], ?_, by simp, hj⟩
    simp [elevate, bind_def, Proc.andThen, emit, printf, osExit, hx, ha, hg, cmdRun, hr,
      pure_def, Proc.ret, execCommand]

/-- Witness for C8: the `sudo` command line built for the sample run. -/
theorem elevate_posix_runs_sudo_witness :
    sampleSudoFailsEnv.goos ≠ "windows" ∧ sampleSudoFailsEnv.executableErr = none ∧
      stringsJoin ("sudo" :: sampleSudoFailsEnv.executable :: sampleInstallArgs.tail) " " =
        "sudo /usr/local/bin/go-launcher -name svc -description demo service -exec /usr/bin/demo -user root" ∧
      ∃ post, (elevate sampleSudoFailsEnv).trace =
        [Event.call Fn.elevate, Event.osExecutable,
          Event.stdout ("Elevating privileges: " ++
            stringsJoin ("sudo" :: sampleSudoFailsEnv.executable :: sampleInstallArgs.tail) " "
              ++ "\n"),
          Event.run (Cmd.mk "sudo" ("sudo" :: sampleSudoFailsEnv.executable :: sampleInstallArgs.tail))
            (sampleSudoFailsEnv.runErr
              (Cmd.mk "sudo" ("sudo" :: sampleSudoFailsEnv.executable :: sampleInstallArgs.tail)))]
          ++ post :=
  ⟨by decide, by decide, by decide,
    (elevate_posix_runs_sudo sampleSudoFailsEnv "go-launcher" sampleInstallArgs.tail (by decide)
      (by decide) (by decide)).imp (fun _ h => h.1)⟩

/-- C9: in an install-mode run every configuration handed to `service.New` by
`launchService` has name, display name, description, executable and user name
all non-empty, the display name equal to the name, and the name, description,
executable and user name equal to the values of `-name`, `-description`,
`-exec` and `-user`. -/
theorem descriptor_fields_nonempty (env : Env) (f : Flags) (cfg : Config) (err : NewErr)
    (hun : f.flagUninstall = false)
    (h : Event.serviceNew cfg err ∈ runTrace env f) :
    (cfg.Name ≠ "" ∧ cfg.DisplayName ≠ "" ∧ cfg.Description ≠ "" ∧ cfg.Executable ≠ "" ∧
      cfg.UserName ≠ "") ∧
    cfg.DisplayName = cfg.Name ∧ cfg.Name = f.flagName ∧ cfg.Description = f.flagDescription ∧
      cfg.Executable = f.flagExecPath ∧ cfg.UserName = f.flagUser := by
  obtain ⟨hi, -, hcfg, -⟩ := serviceNew_mem env f cfg err h
  have hrej := (init_accept f hi).2
  subst hcfg
  simp only [not_or, not_and] at hrej
  have h4 := hrej.1 hun
  exact ⟨⟨h4.1, h4.1, h4.2.1, h4.2.2.1, h4.2.2.2⟩, rfl, rfl, rfl, rfl, rfl⟩

/-- Witness for C9: the configuration of the sample install run. -/
theorem descriptor_fields_nonempty_witness :
    Event.serviceNew sampleConfig NewErr.nil ∈
        runTrace sampleInstallFailsEnv sampleInstallFlags ∧
      (sampleConfig.Name ≠ "" ∧ sampleConfig.DisplayName ≠ "" ∧ sampleConfig.Description ≠ "" ∧
        sampleConfig.Executable ≠ "" ∧ sampleConfig.UserName ≠ "") :=
  ⟨by decide,
    (descriptor_fields_nonempty sampleInstallFailsEnv sampleInstallFlags sampleConfig NewErr.nil
      (by decide) (by decide)).1⟩

/-- C10: `isInstalled` returns false exactly when `Status` returns
`ErrNotInstalled` and true for `nil` and for every other error; hence an
elevated install-mode run whose status query fails with another error makes no
`Install` call, ends with the message "service already installed" and exits
0. -/
theorem isInstalled_only_ErrNotInstalled (sv : Service) :
    ((isInstalled (some sv)).step = Step.next false ↔
      sv.statusErr = StatusErr.ErrNotInstalled) ∧
    ((isInstalled (some sv)).step = Step.next true ↔
      sv.statusErr ≠ StatusErr.ErrNotInstalled) ∧
    (∀ (env : Env) (f : Flags) (msg : String),
      initOutcome f = none → f.flagUninstall = false →
      (isElevated env).step = Step.next true →
      (launchService env f).step = Step.next (some sv) →
      sv.statusErr = StatusErr.other msg →
      (runTrace env f).filter Event.isInstall = [] ∧
      runOutcome env f = Outcome.exited 0 ∧
      ∃ pre, runTrace env f =
        pre ++ [Event.status (StatusErr.other msg), Event.stderr "service already installed\n"]) := by
  refine ⟨isInstalled_false_iff sv, isInstalled_true_iff sv, ?_⟩
  intro env f msg hacc hun hel hs hst
  have hi := initOutcome_none f hacc
  obtain ⟨tail, hrt, hc⟩ := run_with_service env f sv hi hel hs
  simp only [hrt, filter_isInstall_run]
  rcases hc with ⟨h1, -⟩ | ⟨h1, -⟩ | ⟨h1, -⟩ | ⟨-, h2, h4, h5⟩ | ⟨-, h2, -⟩ | ⟨-, h2, -⟩
  · rw [hun] at h1; simp at h1
  · rw [hun] at h1; simp at h1
  · rw [hun] at h1; simp at h1
  · refine ⟨by simp [h4, Event.isInstall], h5, ?_⟩
    refine ⟨(init f).trace ++ (isElevated env).trace ++ (launchService env f).trace ++
      [Event.call Fn.isInstalled], ?_⟩
    rw [h4, hst]
    simp
  · rw [hst] at h2; simp at h2
  · rw [hst] at h2; simp at h2

/-- Witness for C10: with a `Status` error other than `ErrNotInstalled` the
install run makes no `Install` call and exits 0. -/
theorem isInstalled_only_ErrNotInstalled_witness :
    (runTrace sampleStatusFailsEnv sampleInstallFlags).filter Event.isInstall = [] ∧
      runOutcome sampleStatusFailsEnv sampleInstallFlags = Outcome.exited 0 :=
  have h := (isInstalled_only_ErrNotInstalled
    (sampleService (StatusErr.other "dbus unavailable") none none)).2.2
    sampleStatusFailsEnv sampleInstallFlags "dbus unavailable"
    (by decide) (by decide) (by decide) (by decide) rfl
  ⟨h.1, h.2.1⟩

end GoLauncher
